import Mathlib

/-!
A verification development for the serializer of the color.js repository.

The authoritative source is `src/serialize.js`: the function `serialize(color, options)`
renders a Color Value to a string.  Its collaborators (`src/space.js`, `src/defaults.js`,
`src/to.js`, `src/inGamut.js`, `src/toGamut.js`, `src/clone.js`, `src/getColor.js`,
`src/util.js`) are not part of the sources; they are either kept abstract (bundled as an
`Env` record of functions that the theorems quantify over) or, where a claim needs their
concrete behaviour, modelled from the specification (those definitions carry a
`Modelled from the spec:` doc comment).

JavaScript numbers are modelled as exact rationals represented by an unnormalized
numerator/denominator pair `JNum` (kept unnormalized so that the kernel can evaluate
them); `JNum.val` maps them to `ℚ` for order-theoretic reasoning.  JavaScript `undefined`
versus present option fields are modelled with `Option`; the few places where serialize.js
relies on JS truthiness (`||=`, `format.name || "color"`, the `cssId` fallback chain) are
modelled by dedicated helpers (`jsOrElse`, `strOrElse`) that treat `""`, `false` and
absent values as falsy, exactly as JS does for the value shapes that can occur there.

The `getColor` normalization step (which accepts already-constructed color values and
returns them unchanged) is modelled as the identity: the model's `serialize` takes a
Color Value directly.
-/

namespace ColorJs

/-- A JavaScript number, modelled as an exact rational given by an unnormalized
numerator/denominator pair.  Operations keep the denominator positive; `wf` states
that invariant. -/
structure JNum where
  num : Int
  den : Nat
deriving DecidableEq, Repr

/-- JS `x <= y` on numbers (cross multiplication; faithful when both denominators
are positive, see `JNum.le_eq_true_iff`). -/
def JNum.le (x y : JNum) : Bool :=
  decide (x.num * (y.den : Int) ≤ y.num * (x.den : Int))

/-- JS `x < y` on numbers. -/
def JNum.lt (x y : JNum) : Bool :=
  decide (x.num * (y.den : Int) < y.num * (x.den : Int))

/-- JS `x + y`. -/
def JNum.add (x y : JNum) : JNum :=
  ⟨x.num * (y.den : Int) + y.num * (x.den : Int), x.den * y.den⟩

/-- JS `x - y`. -/
def JNum.sub (x y : JNum) : JNum :=
  ⟨x.num * (y.den : Int) - y.num * (x.den : Int), x.den * y.den⟩

/-- JS `x * y`. -/
def JNum.mul (x y : JNum) : JNum :=
  ⟨x.num * y.num, x.den * y.den⟩

/-- JS `Math.min x y` (for the clipping gamut-mapping fallback). -/
def JNum.jmin (x y : JNum) : JNum := if x.le y then x else y

/-- JS `Math.max x y`. -/
def JNum.jmax (x y : JNum) : JNum := if x.le y then y else x

/-- The rational value denoted by a `JNum`. -/
def JNum.val (x : JNum) : ℚ := (x.num : ℚ) / (x.den : ℚ)

/-- Well-formedness: the denominator is positive. -/
def JNum.wf (x : JNum) : Prop := 0 < x.den

instance (x : JNum) : Decidable x.wf := by unfold JNum.wf; infer_instance

/-- A coordinate: a numeric value or the `"none"` sentinel (JS `null`). -/
abbrev Coord := Option JNum

/- ### Spec-modelled number formatting (`util.serializeNumber`, a black-box
   collaborator in `src/util.js`, absent from the sources). -/

/-- Base-10 logarithm on naturals, fuel-bounded structural recursion so the kernel
can evaluate it (`natLog10 n` is the number of digits of `n` minus one, for `n ≥ 1`). -/
def natLog10Aux : Nat → Nat → Nat
  | 0, _ => 0
  | fuel + 1, n => if n < 10 then 0 else natLog10Aux fuel (n / 10) + 1

/-- Base-10 logarithm (64 digits of fuel, ample for every value that occurs). -/
def natLog10 (n : Nat) : Nat := natLog10Aux 64 n

/-- The decimal digit character for `n < 10`. -/
def digitChar (n : Nat) : Char := Char.ofNat (48 + n)

/-- The decimal digits of a natural number, most significant first. -/
def natToDigits : Nat → Nat → List Char
  | 0, _ => []
  | fuel + 1, n => if n < 10 then [digitChar n] else natToDigits fuel (n / 10) ++ [digitChar (n % 10)]

/-- Render a natural number in decimal. -/
def natToString (n : Nat) : String := String.mk (natToDigits 64 n)

/-- Smallest `k ≤ 39` such that `den` divides `10 ^ k`, if any. -/
def findPow10 (den : Nat) : Option Nat :=
  (List.range 40).find? (fun k => 10 ^ k % den == 0)

/-- Drop trailing `'0'` characters. -/
def stripTrailingZeros (l : List Char) : List Char :=
  (l.reverse.dropWhile (fun ch => ch = '0')).reverse

/-- Insert a decimal point `k` digits from the right of a digit string, padding with
leading zeros and stripping trailing fractional zeros (so `"050"`, `k = 2` becomes
`"0.5"`), as JS number-to-string conversion renders terminating decimals. -/
def insertPoint (s : List Char) (k : Nat) : String :=
  let s := List.replicate (k + 1 - s.length) '0' ++ s
  let ip := s.take (s.length - k)
  let fp := stripTrailingZeros (s.drop (s.length - k))
  if fp = [] then String.mk ip else String.mk ip ++ "." ++ String.mk fp

/-- Modelled from the spec: JS number-to-string conversion (the text a number
interpolates to), for numbers with a terminating decimal expansion; the
`numerator/denominator` fallback form never occurs on the values serialize meets. -/
def jnumToString (q : JNum) : String :=
  let a := q.num.natAbs
  let sign := if q.num < 0 then "-" else ""
  match findPow10 q.den with
  | some k => sign ++ insertPoint (natToDigits 64 (a * 10 ^ k / q.den)) k
  | none => sign ++ natToString a ++ "/" ++ natToString q.den

/-- The decimal exponent `e` with `10 ^ e ≤ a / d < 10 ^ (e + 1)`, for `a, d ≥ 1`. -/
def decExpNat (a d : Nat) : Int :=
  if d ≤ a then (natLog10 (a / d) : Int)
  else
    - (match (List.range (natLog10 d + 2)).find? (fun k => decide (d ≤ a * 10 ^ (k + 1))) with
       | some k => ((k + 1 : Nat) : Int)
       | none => ((natLog10 d + 2 : Nat) : Int))

/-- Modelled from the spec: rounding to `p` significant digits (the
"requested significant-digit precision" of the spec), half away from zero on the
values that occur; `p = 0` never occurs. -/
def roundToPrecision (q : JNum) (p : Nat) : JNum :=
  if q.num = 0 then ⟨0, 1⟩
  else
    let e := decExpNat q.num.natAbs q.den
    let s : Int := (p : Int) - 1 - e
    if 0 ≤ s then
      ⟨Int.fdiv (2 * q.num * (10 ^ s.toNat : Nat) + (q.den : Int)) (2 * (q.den : Int)),
        10 ^ s.toNat⟩
    else
      ⟨Int.fdiv (2 * q.num + (q.den : Int) * ((10 ^ (-s).toNat : Nat) : Int))
          (2 * (q.den : Int) * ((10 ^ (-s).toNat : Nat) : Int)) * ((10 ^ (-s).toNat : Nat) : Int),
        1⟩

/-- Modelled from the spec: `util.serializeNumber(value, precision, unit)` from
`src/util.js` (a black-box collaborator): round to the requested significant-digit
precision, render in decimal, append the unit if one is given. -/
def serializeNumberSpec (q : JNum) (p : Nat) (unit : Option String) : String :=
  jnumToString (roundToPrecision q p) ++ unit.getD ""

/- ### JS option values -/

/-- A JS value used where serialize.js only cares about truthiness and about the
strict comparison `=== true`: `undefined`, a boolean, or a (strategy-name) string. -/
inductive JSBoolish where
  | undef
  | jbool (b : Bool)
  | jstr (s : String)
deriving DecidableEq, Repr

/-- JS truthiness of such a value (`undefined` and `""` are falsy). -/
def JSBoolish.truthy : JSBoolish → Bool
  | .undef => false
  | .jbool b => b
  | .jstr s => s ≠ ""

/-- JS `a ||= b` (equivalently `a || b`) on such values. -/
def jsOrElse (a b : JSBoolish) : JSBoolish := if a.truthy then a else b

/-- JS `a || b` for an optional string `a` (absent and `""` are falsy). -/
def strOrElse (a : Option String) (b : String) : String :=
  match a with
  | some s => if s = "" then b else s
  | none => b

/-- The `options.precision` field: absent (`undefined`), `null`, or a number. -/
inductive PrecisionOpt where
  | undef
  | nul
  | num (n : Nat)
deriving DecidableEq, Repr

/-- The `options.alpha` field: a boolean, a string (alpha type), or a
`\x7btype, include\x7d` object. -/
inductive AlphaFormatOpt where
  | bool (b : Bool)
  | str (s : String)
  | obj (atype : Option String) (ainclude : Option Bool)
deriving DecidableEq, Repr

/-- The normalized alpha-format object serialize.js works with after line 80. -/
structure AlphaObj where
  atype : Option String := none
  ainclude : Option Bool := none
deriving DecidableEq, Repr

/-- Lines 79-81 of serialize.js: a non-object `options.alpha` is wrapped into an
object (`string` becomes the `type` field, `boolean` the `include` field). -/
def normalizeAlphaFormat : Option AlphaFormatOpt → Option AlphaObj
  | none => none
  | some (.bool b) => some { ainclude := some b }
  | some (.str s) => some { atype := some s }
  | some (.obj t i) => some { atype := t, ainclude := i }

/-- `alphaFormat?.type ?? "<number>"` (line 83). -/
def alphaTypeOf (a : Option AlphaFormatOpt) : String :=
  ((normalizeAlphaFormat a).bind AlphaObj.atype).getD "<number>"

/-- `alphaFormat?.include` as read on line 84. -/
def alphaIncludeOf (a : Option AlphaFormatOpt) : Option Bool :=
  (normalizeAlphaFormat a).bind AlphaObj.ainclude

/-- The options accepted by `serialize` (`src/serialize.js` lines 19-26);
absent fields are JS `undefined`. -/
structure Options where
  precision : PrecisionOpt := .undef
  format : Option String := none
  inGamut : JSBoolish := .undef
  coords : Option String := none
  alpha : Option AlphaFormatOpt := none

/-- Modelled from the spec: `defaults.precision` from `src/defaults.js`
(the implementation default of 5 significant digits). -/
def defaultPrecision : Nat := 5

/-- The precision serialize.js works with after destructuring: `undefined` picks up
`defaults.precision`, `null` stays `null` (here `none`). -/
def precisionOf (opts : Options) : Option Nat :=
  match opts.precision with
  | .undef => some defaultPrecision
  | .nul => none
  | .num n => some n

/-- A Format Descriptor as consumed by serialize.js: `type` distinguishes `custom`
formats; `space` (an id, `none` when the format has no target space) may redirect
serialization to another color space; `toGamut` is the format's own gamut-mapping
default; `serializeCoords` and the optional custom `serialize` hook are
format-supplied functions kept abstract. -/
structure Format where
  ftype : String := "function"
  name : Option String := none
  space : Option String := none
  toGamut : JSBoolish := .undef
  alpha : Option Bool := none
  commas : Bool := false
  id : Option String := none
  ids : List String := []
  serializeCoords : List Coord → Option Nat → Option String → List String := fun _ _ _ => []
  serialize : Option (List Coord → JNum → Options → String) := none

/-- A Space Descriptor as far as serialize.js and its collaborators need it:
id, optional CSS-facing id, the space's own Format Catalog, and the
per-coordinate ranges the gamut checker uses (absent entries are unbounded). -/
structure Space where
  id : String
  cssId : Option String := none
  formats : List (String × Format) := []
  ranges : List (JNum × JNum) := []

/-- A Color Value: space, coordinates, alpha. -/
structure Color where
  space : Space
  coords : List Coord
  alpha : JNum

/-- The process-wide Space Registry, in registration order. -/
structure Registry where
  spaces : List Space

/-- Modelled from the spec: `space.getFormat(id)` looks the id up in the space's
own Format Catalog (`src/space.js` is not part of the sources). -/
def Space.getFormat (sp : Space) (fid : String) : Option Format :=
  sp.formats.lookup fid

/-- Modelled from the spec: `ColorSpace.findFormat(id)` searches all registered
spaces' catalogs in registration order and returns the first match. -/
def Registry.findFormat (reg : Registry) (fid : String) : Option Format :=
  reg.spaces.findSome? (fun sp => sp.getFormat fid)

/-- Look a space up by id (spaces come from the registry, so the JS object-identity
comparison `format.space !== color.space` is id comparison here). -/
def Registry.findSpace (reg : Registry) (sid : String) : Option Space :=
  reg.spaces.find? (fun sp => sp.id == sid)

/-- The abstract collaborators of serialize.js, quantified over by the theorems:
the coordinate transform of the Converter, the Gamut Checker predicate, the Gamut
Mapper, `util.serializeNumber`, and JS number-to-string conversion. -/
structure Env where
  convertCoords : String → String → List Coord → List Coord
  checkInGamut : Color → Bool
  toGamut : Color → Option JSBoolish → Color
  serializeNumber : JNum → Nat → Option String → String
  numToString : JNum → String

/-- Modelled from the spec: the default coordinate serialization used by the
hard-coded fallback format (each coordinate rendered at the requested precision,
`"none"` for the sentinel). -/
def serializeCoordsSpec (coords : List Coord) (precision : Option Nat)
    (_coordFormat : Option String) : List String :=
  coords.map fun c =>
    match c with
    | none => "none"
    | some q =>
      match precision with
      | some p => serializeNumberSpec q p none
      | none => jnumToString q

/-- Modelled from the spec: `ColorSpace.DEFAULT_FORMAT`, the hard-coded minimal
fallback format (generic functional `color(...)` syntax). -/
def DEFAULT_FORMAT : Format :=
  { ftype := "functional", name := some "color", serializeCoords := serializeCoordsSpec }

/-- Lines 32-35 of serialize.js: resolve the Format Descriptor by trying the
color's own space, then the whole registry, then the space's `"default"` format,
then the hard-coded fallback. -/
def resolveFormat (reg : Registry) (sp : Space) (fid : String) : Format :=
  (sp.getFormat fid).getD
    ((reg.findFormat fid).getD
      ((sp.getFormat "default").getD DEFAULT_FORMAT))

/-- Modelled from the spec: the Converter facade `to(color, space)` from
`src/to.js` (named `toFn` here, as in the repository's own `color.d.ts` import
alias, since `to` is reserved in Lean): identity short-circuit when already in the
target space, otherwise a new Color Value with transformed coordinates and alpha
passed through unchanged. -/
def toFn (env : Env) (reg : Registry) (c : Color) (sid : String) : Color :=
  if c.space.id = sid then c
  else
    match reg.findSpace sid with
    | some sp => { space := sp, coords := env.convertCoords c.space.id sid c.coords, alpha := c.alpha }
    | none => c

/-- Lines 37-41 of serialize.js: if the resolved format declares a different
target space, convert the color into it first. -/
def convertIfNeeded (env : Env) (reg : Registry) (c : Color) (fmt : Format) : Color :=
  match fmt.space with
  | some sid => if sid ≠ c.space.id then toFn env reg c sid else c
  | none => c

/-- Line 49 of serialize.js: `inGamut ||= format.toGamut`, after the destructuring
default `inGamut = true` for an absent option. -/
def effectiveGamutFlag (opts : Options) (fmt : Format) : JSBoolish :=
  jsOrElse (match opts.inGamut with | .undef => JSBoolish.jbool true | v => v) fmt.toGamut

/-- Lines 47-54 of serialize.js: the working coordinates are a copy of the
(possibly converted) color's coordinates, replaced by the gamut-mapped coordinates
when the effective flag is truthy and the color is out of gamut; the strategy
argument is omitted exactly when the flag is strictly `true`. -/
def workingCoords (env : Env) (c : Color) (flag : JSBoolish) : List Coord :=
  if flag.truthy && !(env.checkInGamut c) then
    (env.toGamut c (if flag = JSBoolish.jbool true then none else some flag)).coords
  else c.coords

/-- Line 72 of serialize.js: the id prepended inside generic `color(...)` syntax:
`format.id || format.ids?.[0] || color.space.cssId || color.space.id`. -/
def cssIdOf (fmt : Format) (c : Color) : String :=
  strOrElse fmt.id (strOrElse fmt.ids.head? (strOrElse c.space.cssId c.space.id))

/-- Line 84 of serialize.js: whether to serialize alpha. -/
def shouldSerializeAlpha (inc : Option Bool) (fmtAlpha : Option Bool) (a : JNum) : Bool :=
  decide (inc = some true) || decide (fmtAlpha = some true) ||
    (!decide (inc = some false) && !decide (fmtAlpha = some false) && a.lt ⟨1, 1⟩)

/-- Lines 87-97 of serialize.js: the text of the alpha value: with a non-null
precision, `util.serializeNumber` of the (possibly percent-scaled) value with the
matching unit; with `null` precision, plain JS number-to-string interpolation. -/
def renderedAlpha (env : Env) (alphaType : String) (precision : Option Nat) (a : JNum) : String :=
  match precision with
  | some p =>
    env.serializeNumber (if alphaType = "<percentage>" then a.mul ⟨100, 1⟩ else a) p
      (if alphaType = "<percentage>" then some "%" else none)
  | none => env.numToString a

/-- JS `Array.prototype.join(sep)`. -/
def joinSep (sep : String) : List String → String
  | [] => ""
  | [s] => s
  | s :: rest => s ++ sep ++ joinSep sep rest

/-- The serialization failure of serialize.js (line 61: a parse-only custom format
cannot serialize; the spec taxonomy calls this `UnsupportedOperationError`). -/
inductive SerializeError where
  | unsupportedOperation (formatId : String)
deriving DecidableEq, Repr

/-- Lines 56-103 of serialize.js: everything after the working coordinates are
fixed.  A `custom` format requires its `serialize` hook, called with
`(coords, alpha, options)`; otherwise functional syntax is rendered. -/
def serializeRender (env : Env) (color : Color) (fmt : Format) (formatId : String)
    (opts : Options) (coords : List Coord) : Except SerializeError String :=
  if fmt.ftype = "custom" then
    match fmt.serialize with
    | some hook => .ok (hook coords color.alpha opts)
    | none => .error (.unsupportedOperation formatId)
  else
    let name := strOrElse fmt.name "color"
    let args := fmt.serializeCoords coords (precisionOf opts) opts.coords
    let args := if name = "color" then cssIdOf fmt color :: args else args
    let strAlpha :=
      if shouldSerializeAlpha (alphaIncludeOf opts.alpha) fmt.alpha color.alpha then
        (if fmt.commas then "," else " /") ++ " " ++
          renderedAlpha env (alphaTypeOf opts.alpha) (precisionOf opts) color.alpha
      else ""
    .ok (name ++ "(" ++ joinSep (if fmt.commas then ", " else " ") args ++ strAlpha ++ ")")

/-- `serialize(color, options)` from `src/serialize.js`: resolve the format
(`formatId` is `options.format` with destructuring default `"default"`), convert
if the format targets another space, apply gamut correction to a copy of the
coordinates when needed, then render. -/
def serialize (env : Env) (reg : Registry) (color : Color) (opts : Options) :
    Except SerializeError String :=
  serializeRender env
    (convertIfNeeded env reg color (resolveFormat reg color.space (opts.format.getD "default")))
    (resolveFormat reg color.space (opts.format.getD "default"))
    (opts.format.getD "default") opts
    (workingCoords env
      (convertIfNeeded env reg color (resolveFormat reg color.space (opts.format.getD "default")))
      (effectiveGamutFlag opts (resolveFormat reg color.space (opts.format.getD "default"))))

/- ### Spec-modelled Gamut Checker and Gamut Mapper (`src/inGamut.js` and
   `src/toGamut.js` are not part of the sources). -/

/-- Modelled from the spec: the "default small positive constant" tolerance of the
Gamut Checker. -/
def defaultEpsilon : JNum := ⟨75, 1000000⟩

/-- One coordinate against one declared range, tolerant by `eps`; the `"none"`
sentinel is in range. -/
def coordInRange (eps : JNum) (c : Coord) (r : JNum × JNum) : Bool :=
  match c with
  | none => true
  | some v => (r.1.sub eps).le v && v.le (r.2.add eps)

/-- All coordinates against the declared ranges (coordinates beyond the declared
ranges are unconstrained). -/
def inGamutCoords (eps : JNum) : List Coord → List (JNum × JNum) → Bool
  | _, [] => true
  | [], _ => true
  | c :: cs, r :: rs => coordInRange eps c r && inGamutCoords eps cs rs

/-- Modelled from the spec: the Gamut Checker `inGamut` from `src/inGamut.js`: a
pure per-coordinate range check with tolerance `defaultEpsilon`. -/
def checkInGamutSpec (c : Color) : Bool :=
  inGamutCoords defaultEpsilon c.coords c.space.ranges

/-- Clip one coordinate into its declared range. -/
def clipCoord (c : Coord) (r : JNum × JNum) : Coord :=
  match c with
  | none => none
  | some v => some (r.1.jmax (r.2.jmin v))

/-- Clip all coordinates into the declared ranges. -/
def clipCoords : List Coord → List (JNum × JNum) → List Coord
  | cs, [] => cs
  | [], _ => []
  | c :: cs, r :: rs => clipCoord c r :: clipCoords cs rs

/-- Modelled from the spec: the Gamut Mapper `toGamut` from `src/toGamut.js`.  The
spec leaves the strategy pluggable and only guarantees per-coordinate clipping as
the universal fallback, so the model clips; it returns a new value and does not
mutate its input (the model is pure). -/
def toGamutSpec (c : Color) (_strategy : Option JSBoolish) : Color :=
  { c with coords := clipCoords c.coords c.space.ranges }

/-- The concrete environment assembling the spec-modelled collaborators (identity
coordinate transform, range-check gamut checker, clipping mapper, spec-modelled
number formatting). -/
def specEnv : Env :=
  { convertCoords := fun _ _ cs => cs
    checkInGamut := checkInGamutSpec
    toGamut := toGamutSpec
    serializeNumber := serializeNumberSpec
    numToString := jnumToString }

/- ### Concrete fixtures used by witnesses and counterexamples -/

/-- The `[0, 1]` range of each sRGB coordinate. -/
def srgbRanges : List (JNum × JNum) :=
  [(⟨0, 1⟩, ⟨1, 1⟩), (⟨0, 1⟩, ⟨1, 1⟩), (⟨0, 1⟩, ⟨1, 1⟩)]

/-- A generic `color(...)`-syntax format like the ones the space catalog registers. -/
def colorFnFormat : Format :=
  { ftype := "functional", name := some "color", serializeCoords := serializeCoordsSpec }

/-- An sRGB-like space whose default format is the generic `color(...)` syntax. -/
def srgbSpace : Space :=
  { id := "srgb", formats := [("default", colorFnFormat)], ranges := srgbRanges }

/-- A registry holding just the sRGB-like space. -/
def reg1 : Registry := { spaces := [srgbSpace] }

/-- Opaque red, alpha 1. -/
def red : Color := { space := srgbSpace, coords := [some ⟨1, 1⟩, some ⟨0, 1⟩, some ⟨0, 1⟩], alpha := ⟨1, 1⟩ }

/-- Red at alpha one half. -/
def redHalf : Color := { red with alpha := ⟨1, 2⟩ }

/-- A space with an empty format catalog (so every lookup misses). -/
def bareSpace : Space := { id := "bare" }

/-- A registry holding only the bare space. -/
def regBare : Registry := { spaces := [bareSpace] }

/-- A color in the bare space. -/
def gray : Color :=
  { space := bareSpace, coords := [some ⟨1, 2⟩, some ⟨1, 2⟩, some ⟨1, 2⟩], alpha := ⟨1, 1⟩ }

/- ### C1 -/

/-- The claim's strategy-selector rule: the flag's value is passed to `toGamut`
exactly when the flag is not literally `true`. -/
def specGamutStrategySelector (flag : JSBoolish) : Option JSBoolish :=
  if flag = JSBoolish.jbool true then none else some flag

/-- The claim's description of the working coordinates: gamut mapping runs exactly
when the flag is truthy and the color fails the `inGamut` check, in which case the
coordinates are replaced by the result of `toGamut` under the selector rule. -/
def specWorkingCoords (env : Env) (c : Color) (flag : JSBoolish) : List Coord :=
  if flag.truthy = true ∧ env.checkInGamut c = false then
    (env.toGamut c (specGamutStrategySelector flag)).coords
  else c.coords

/- ### C3 -/

/-- The claim's assembly of functional syntax: `name(` then the arguments joined
by `", "` in comma mode and `" "` otherwise, then the alpha suffix — when included,
`", a"` in comma mode and `" / a"` otherwise — then `)`. -/
def specFunctionalString (name : String) (args : List String) (commas : Bool)
    (alphaText : Option String) : String :=
  name ++ "(" ++ joinSep (if commas then ", " else " ") args ++
    (match alphaText with
     | some a => (if commas then ", " else " / ") ++ a
     | none => "") ++ ")"

/-- The first-argument rule: when the functional name is the generic `"color"`
wrapper, an id is prepended to the arguments (which id is settled by
`cssIdOf`, see the C3 counterexample and amended theorem). -/
def specPrependId (fmt : Format) (c : Color) (args : List String) : List String :=
  if strOrElse fmt.name "color" = "color" then cssIdOf fmt c :: args else args

/-- A functional `color(...)`-syntax format carrying its own id, which
serialize.js (line 72) prefers over the space's CSS-facing or plain id. -/
def weirdIdFormat : Format :=
  { ftype := "functional", name := some "color", id := some "weird",
    serializeCoords := serializeCoordsSpec }

/-- A space (plain id `"srgb"`, no CSS id) whose default format is `weirdIdFormat`. -/
def weirdSpace : Space :=
  { id := "srgb", formats := [("default", weirdIdFormat)], ranges := srgbRanges }

/-- A registry holding only `weirdSpace`. -/
def regWeird : Registry := { spaces := [weirdSpace] }

/-- Opaque red in `weirdSpace`. -/
def redWeird : Color :=
  { space := weirdSpace, coords := [some ⟨1, 1⟩, some ⟨0, 1⟩, some ⟨0, 1⟩], alpha := ⟨1, 1⟩ }

/- ### C5 -/

/-- A format whose own alpha flag is `true` (it always wants the alpha suffix). -/
def alphaTrueFormat : Format :=
  { ftype := "functional", name := some "color", alpha := some true,
    serializeCoords := serializeCoordsSpec }

/-- A space whose default format is `alphaTrueFormat`. -/
def alphaTrueSpace : Space :=
  { id := "srgb", formats := [("default", alphaTrueFormat)], ranges := srgbRanges }

/-- A registry holding only `alphaTrueSpace`. -/
def regAlphaTrue : Registry := { spaces := [alphaTrueSpace] }

/-- Opaque red in `alphaTrueSpace`. -/
def redAlphaTrue : Color :=
  { space := alphaTrueSpace, coords := [some ⟨1, 1⟩, some ⟨0, 1⟩, some ⟨0, 1⟩], alpha := ⟨1, 1⟩ }

/-- The amended precedence of the alpha-inclusion decision: an explicit per-call
include `true` forces inclusion; else a format alpha flag `true` forces inclusion
(in particular it overrides per-call include `false`); else per-call include
`false` suppresses; else a format alpha flag `false` suppresses; else alpha < 1
decides. -/
def specAlphaPrecedence (inc fa : Option Bool) (a : JNum) : Bool :=
  if inc = some true then true
  else if fa = some true then true
  else if inc = some false then false
  else if fa = some false then false
  else a.lt ⟨1, 1⟩

/- ### C8 -/

/-- A custom format whose serialize hook renders the alpha value it receives. -/
def customHookFormat : Format :=
  { ftype := "custom", serialize := some (fun _ a _ => "custom:" ++ jnumToString a) }

/-- A parse-only custom format: it has no serialize hook. -/
def parseOnlyFormat : Format := { ftype := "custom" }

/-- A space carrying both custom formats. -/
def customSpace : Space :=
  { id := "cspace",
    formats := [("default", customHookFormat), ("parseonly", parseOnlyFormat)],
    ranges := srgbRanges }

/-- A registry holding only `customSpace`. -/
def regCustom : Registry := { spaces := [customSpace] }

/-- An in-gamut color in `customSpace`. -/
def customColor : Color :=
  { space := customSpace, coords := [some ⟨1, 2⟩, some ⟨1, 2⟩, some ⟨1, 2⟩], alpha := ⟨1, 1⟩ }

/-- Witness for C10: an environment whose gamut mapper clips the coordinates but
zeroes its result's alpha; the custom hook still receives the original alpha 1. -/
def alphaManglingEnv : Env :=
  { specEnv with
    toGamut := fun c _ =>
      { space := c.space, coords := clipCoords c.coords c.space.ranges, alpha := ⟨0, 1⟩ } }

/-- An out-of-gamut color in `customSpace` (first coordinate 3/2). -/
def customColorOut : Color :=
  { space := customSpace, coords := [some ⟨3, 2⟩, some ⟨1, 2⟩, some ⟨1, 2⟩], alpha := ⟨1, 1⟩ }

/-- An out-of-gamut color (first coordinate 3/2) in the sRGB-like space. -/
def redOut : Color :=
  { space := srgbSpace, coords := [some ⟨3, 2⟩, some ⟨0, 1⟩, some ⟨0, 1⟩], alpha := ⟨1, 1⟩ }

/- ### C9: a heap-instrumented model for the frame property.

serialize.js manipulates JS arrays, which are mutable references.  To state that
serialize treats its input as read-only, the coordinate arrays are placed in an
explicit store (heap) and the call is re-traced with every array operation
explicit: `color.coords.slice()` (line 47) allocates a copy, and gamut mapping
(line 53) operates on `clone(color)`, a fresh copy.  All other definitions are
shared with the pure model. -/

/-- The heap of coordinate arrays, addressed by allocation index. -/
abbrev Store := List (List Coord)

/-- A Color Value whose coordinate array lives in the store. -/
structure ColorRef where
  space : Space
  coordsRef : Nat
  alpha : JNum

/-- Read an array from the store. -/
def readArr (st : Store) (r : Nat) : List Coord := (st[r]?).getD []

/-- Allocate a fresh array at the end of the store. -/
def alloc (st : Store) (v : List Coord) : Nat × Store := (st.length, st ++ [v])

/-- The pure Color Value a `ColorRef` denotes in a store. -/
def derefColor (st : Store) (c : ColorRef) : Color :=
  { space := c.space, coords := readArr st c.coordsRef, alpha := c.alpha }

/-- Modelled from the spec: `clone` from `src/clone.js` — a copy of the color
with a fresh coordinate array. -/
def cloneStore (st : Store) (c : ColorRef) : ColorRef × Store :=
  ({ c with coordsRef := (alloc st (readArr st c.coordsRef)).1 },
    (alloc st (readArr st c.coordsRef)).2)

/-- Modelled from the spec: the Converter over the store — it returns a new
Color Value (fresh coordinate array), identity short-circuit excepted. -/
def toFnStore (env : Env) (reg : Registry) (st : Store) (c : ColorRef) (sid : String) :
    ColorRef × Store :=
  if c.space.id = sid then (c, st)
  else
    match reg.findSpace sid with
    | some sp =>
      ({ space := sp,
         coordsRef := (alloc st (env.convertCoords c.space.id sid (readArr st c.coordsRef))).1,
         alpha := c.alpha },
        (alloc st (env.convertCoords c.space.id sid (readArr st c.coordsRef))).2)
    | none => (c, st)

/-- Lines 37-41 of serialize.js over the store. -/
def convertIfNeededStore (env : Env) (reg : Registry) (st : Store) (c : ColorRef) (fmt : Format) :
    ColorRef × Store :=
  match fmt.space with
  | some sid => if sid ≠ c.space.id then toFnStore env reg st c sid else (c, st)
  | none => (c, st)

/-- Modelled from the spec: the Gamut Mapper over the store — it does not mutate
its input and returns a new value with a fresh coordinate array. -/
def toGamutStore (env : Env) (st : Store) (c : ColorRef) (strategy : Option JSBoolish) :
    ColorRef × Store :=
  ({ space := (env.toGamut (derefColor st c) strategy).space,
     coordsRef := (alloc st (env.toGamut (derefColor st c) strategy).coords).1,
     alpha := (env.toGamut (derefColor st c) strategy).alpha },
    (alloc st (env.toGamut (derefColor st c) strategy).coords).2)

/-- serialize.js over the heap-instrumented model: the result string and the
final store. -/
def serializeStore (env : Env) (reg : Registry) (st : Store) (c : ColorRef) (opts : Options) :
    Except SerializeError String × Store :=
  let formatId := opts.format.getD "default"
  let fmt := resolveFormat reg c.space formatId
  let p1 := convertIfNeededStore env reg st c fmt
  let c1 := p1.1
  let st1 := p1.2
  let p2 := alloc st1 (readArr st1 c1.coordsRef)
  let st2 := p2.2
  let flag := effectiveGamutFlag opts fmt
  let p3 :=
    if flag.truthy && !(env.checkInGamut (derefColor st2 c1)) then
      let pc := cloneStore st2 c1
      let pg := toGamutStore env pc.2 pc.1 (if flag = JSBoolish.jbool true then none else some flag)
      (pg.1.coordsRef, pg.2)
    else (p2.1, st2)
  (serializeRender env (derefColor p3.2 c1) fmt formatId opts (readArr p3.2 p3.1), p3.2)

/-- Store extension: the second store is the first with some arrays appended. -/
def StoreExt (st st' : Store) : Prop := ∃ ext, st' = st ++ ext

/-- An initial store holding one out-of-gamut coordinate array. -/
def store0 : Store := [[some ⟨2, 1⟩, some ⟨0, 1⟩, some ⟨0, 1⟩]]

/-- A color whose coordinates are array 0 of `store0`. -/
def refColor0 : ColorRef := { space := srgbSpace, coordsRef := 0, alpha := ⟨1, 1⟩ }

/-- C1: in `serialize`, the effective gamut-correction flag equals `options.inGamut`
(defaulting to `true` when absent) OR-ed with the resolved format's `toGamut`
default, and gamut mapping runs exactly when this flag is truthy and the (possibly
space-converted) color fails the `inGamut` check, in which case the working
coordinates are replaced by the result of `toGamut`, with the flag's value passed
as the strategy selector when the flag is not literally `true` and no selector
passed when it is. -/
theorem serialize_gamut_correction (env : Env) (reg : Registry) (c : Color) (opts : Options) :
    serialize env reg c opts =
      serializeRender env
        (convertIfNeeded env reg c (resolveFormat reg c.space (opts.format.getD "default")))
        (resolveFormat reg c.space (opts.format.getD "default"))
        (opts.format.getD "default") opts
        (specWorkingCoords env
          (convertIfNeeded env reg c (resolveFormat reg c.space (opts.format.getD "default")))
          (jsOrElse (match opts.inGamut with | .undef => JSBoolish.jbool true | v => v)
            (resolveFormat reg c.space (opts.format.getD "default")).toGamut)) := by
  unfold serialize effectiveGamutFlag
  congr 1
  unfold workingCoords specWorkingCoords specGamutStrategySelector
  simp only [Bool.and_eq_true, Bool.not_eq_true']

/- ### C2 -/

/-- C2: the Format Descriptor is resolved by trying, in this order, the color's
own space's format of the requested id, else a format of that id found anywhere in
the registry, else the space's own `"default"` format, else the hard-coded
fallback format; so for an unknown format id, resolution falls through the chain
without failing, and when nothing matches at all the hard-coded fallback is used
and serialization still succeeds. -/
theorem serialize_format_resolution_chain (env : Env) (reg : Registry) (c : Color)
    (opts : Options) (fid : String) (hfid : fid = opts.format.getD "default") :
    (∀ f, c.space.getFormat fid = some f → resolveFormat reg c.space fid = f) ∧
    (c.space.getFormat fid = none →
      ∀ f, reg.findFormat fid = some f → resolveFormat reg c.space fid = f) ∧
    (c.space.getFormat fid = none → reg.findFormat fid = none →
      ∀ f, c.space.getFormat "default" = some f → resolveFormat reg c.space fid = f) ∧
    (c.space.getFormat fid = none → reg.findFormat fid = none →
      c.space.getFormat "default" = none →
      resolveFormat reg c.space fid = DEFAULT_FORMAT ∧
      ∃ s, serialize env reg c opts = Except.ok s) := by
  refine ⟨?_, ?_, ?_, ?_⟩
  · intro f h
    simp [resolveFormat, h]
  · intro h1 f h2
    simp [resolveFormat, h1, h2]
  · intro h1 h2 f h3
    simp [resolveFormat, h1, h2, h3]
  · intro h1 h2 h3
    have hres : resolveFormat reg c.space fid = DEFAULT_FORMAT := by
      simp [resolveFormat, h1, h2, h3]
    refine ⟨hres, ?_⟩
    unfold serialize
    rw [← hfid, hres]
    exact ⟨_, rfl⟩

/-- Witness for C2: in a registry whose only space has an empty catalog, the
unknown id `"nosuch"` resolves to the hard-coded fallback and serialization
returns a string. -/
theorem serialize_format_resolution_chain_witness :
    resolveFormat regBare bareSpace "nosuch" = DEFAULT_FORMAT ∧
    ∃ s, serialize specEnv regBare gray { format := some "nosuch" } = Except.ok s := by
  exact (serialize_format_resolution_chain specEnv regBare gray { format := some "nosuch" }
    "nosuch" rfl).2.2.2 rfl rfl rfl

/-- Shared helper: on a non-custom format, `serializeRender` produces exactly the
claim-side functional assembly. -/
theorem serializeRender_functional_eq (env : Env) (c : Color) (fmt : Format)
    (fid : String) (opts : Options) (W : List Coord) (h : fmt.ftype ≠ "custom") :
    serializeRender env c fmt fid opts W =
      Except.ok (specFunctionalString (strOrElse fmt.name "color")
        (specPrependId fmt c (fmt.serializeCoords W (precisionOf opts) opts.coords))
        fmt.commas
        (if shouldSerializeAlpha (alphaIncludeOf opts.alpha) fmt.alpha c.alpha then
          some (renderedAlpha env (alphaTypeOf opts.alpha) (precisionOf opts) c.alpha)
        else none)) := by
  unfold serializeRender specFunctionalString specPrependId
  rw [if_neg h]
  cases hc : shouldSerializeAlpha (alphaIncludeOf opts.alpha) fmt.alpha c.alpha <;>
    cases hcm : fmt.commas <;>
      simp [hc, hcm]

/-- Counterexample to C3 as stated: with a format that carries its own id, the
first argument of the generic `color(...)` output is the format's id `"weird"`
and not the space's CSS-facing id (or plain id) `"srgb"`, so the output differs
from the one the claim prescribes. -/
theorem serialize_color_id_counterexample :
    serialize specEnv regWeird redWeird {} = Except.ok "color(weird 1 0 0)" ∧
    strOrElse weirdSpace.cssId weirdSpace.id = "srgb" ∧
    ("color(weird 1 0 0)" : String) ≠ "color(srgb 1 0 0)" :=
  ⟨rfl, rfl, by decide⟩

/-- C3 (amended): for every functional-kind format, the serialized string is
exactly `name(args joined by ", " when the format uses commas, otherwise by " ")`
with the alpha suffix, when included, being `", a"` in comma mode and `" / a"`
otherwise; and when the functional name is the generic `"color"` wrapper, the
prepended first argument is the format's own id, else the first entry of the
format's ids, else the space's CSS-facing id, else the plain space id. -/
theorem serialize_functional_syntax (env : Env) (reg : Registry) (c : Color)
    (opts : Options) (fmt : Format) (c1 : Color) (W : List Coord)
    (hfmt : fmt = resolveFormat reg c.space (opts.format.getD "default"))
    (hc1 : c1 = convertIfNeeded env reg c fmt)
    (hW : W = workingCoords env c1 (effectiveGamutFlag opts fmt))
    (h : fmt.ftype ≠ "custom") :
    serialize env reg c opts =
      Except.ok (specFunctionalString (strOrElse fmt.name "color")
        (specPrependId fmt c1 (fmt.serializeCoords W (precisionOf opts) opts.coords))
        fmt.commas
        (if shouldSerializeAlpha (alphaIncludeOf opts.alpha) fmt.alpha c1.alpha then
          some (renderedAlpha env (alphaTypeOf opts.alpha) (precisionOf opts) c1.alpha)
        else none)) := by
  subst hfmt; subst hc1; subst hW
  exact serializeRender_functional_eq env _ _ _ opts _ h

/-- Witness for C3 (amended), at `redHalf` with default options: the output is the
claim-side assembly of `"color"`, arguments `["srgb", "1", "0", "0"]`, space-mode
punctuation, and alpha text `"0.5"`. -/
theorem serialize_functional_syntax_witness :
    serialize specEnv reg1 redHalf {} =
      Except.ok (specFunctionalString "color" ["srgb", "1", "0", "0"] false (some "0.5")) := by
  exact serialize_functional_syntax specEnv reg1 redHalf {} colorFnFormat redHalf
    (workingCoords specEnv redHalf (effectiveGamutFlag {} colorFnFormat))
    rfl rfl rfl (by decide)

/- ### C4 -/

/-- C4: under default options and with no format alpha flag, the suffix decision
is exactly `alpha < 1`; an explicit per-call `alpha: true` forces inclusion
regardless of the format flag; and concretely: alpha 1 with default options omits
the suffix, alpha 0.5 includes it, `alpha: true` forces `" / 1"` even at alpha 1,
and `alpha: "<percentage>"` at alpha 0.5 with the non-null default precision
renders the alpha text as `50%`. -/
theorem serialize_alpha_policy :
    (∀ a : JNum, shouldSerializeAlpha (alphaIncludeOf none) none a = a.lt ⟨1, 1⟩) ∧
    (∀ (fa : Option Bool) (a : JNum),
      shouldSerializeAlpha (alphaIncludeOf (some (AlphaFormatOpt.bool true))) fa a = true) ∧
    serialize specEnv reg1 red {} = Except.ok "color(srgb 1 0 0)" ∧
    serialize specEnv reg1 redHalf {} = Except.ok "color(srgb 1 0 0 / 0.5)" ∧
    serialize specEnv reg1 red { alpha := some (AlphaFormatOpt.bool true) } =
      Except.ok "color(srgb 1 0 0 / 1)" ∧
    serialize specEnv reg1 redHalf { alpha := some (AlphaFormatOpt.str "<percentage>") } =
      Except.ok "color(srgb 1 0 0 / 50%)" :=
  ⟨fun _ => rfl, fun _ _ => rfl, rfl, rfl, rfl, rfl⟩

/-- Counterexample to C5 as stated: an explicit per-call `include: false` does
not suppress the alpha suffix when the format's own alpha flag is `true` — the
format flag wins and the output still carries `" / 1"`. -/
theorem serialize_alpha_override_counterexample :
    serialize specEnv regAlphaTrue redAlphaTrue
        { alpha := some (AlphaFormatOpt.obj none (some false)) } =
      Except.ok "color(srgb 1 0 0 / 1)" ∧
    ("color(srgb 1 0 0 / 1)" : String) ≠ "color(srgb 1 0 0)" :=
  ⟨rfl, by decide⟩

/-- C5 (amended): the alpha-suffix decision of serialize equals the amended
precedence (format alpha `true` overrides per-call include `false`; apart from
that, the per-call override wins over the format flag, which wins over the
default alpha < 1 rule); concretely, per-call include `false` is overridden by a
format alpha `true` flag but does suppress the suffix otherwise. -/
theorem serialize_alpha_inclusion_precedence :
    (∀ (inc fa : Option Bool) (a : JNum),
      shouldSerializeAlpha inc fa a = specAlphaPrecedence inc fa a) ∧
    serialize specEnv regAlphaTrue redAlphaTrue
        { alpha := some (AlphaFormatOpt.obj none (some false)) } =
      Except.ok "color(srgb 1 0 0 / 1)" ∧
    serialize specEnv reg1 redHalf { alpha := some (AlphaFormatOpt.obj none (some false)) } =
      Except.ok "color(srgb 1 0 0)" := by
  refine ⟨?_, rfl, rfl⟩
  intro inc fa a
  rcases inc with _ | b <;> rcases fa with _ | b' <;> (try cases b) <;> (try cases b') <;> rfl

/- ### C7 -/

/-- C7: with a non-null precision, the alpha value is scaled by 100 and given the
`"%"` unit exactly when the resolved alpha type is `"<percentage>"`, and is handed
to the significant-digit serializer at the requested precision; with null
precision, the raw alpha value's own text is used, with no unit conversion even
when a percentage type was requested. -/
theorem serialize_alpha_unit_rounding :
    (∀ (env : Env) (p : Nat) (a : JNum),
      renderedAlpha env "<percentage>" (some p) a =
        env.serializeNumber (a.mul ⟨100, 1⟩) p (some "%")) ∧
    (∀ (env : Env) (t : String) (p : Nat) (a : JNum), t ≠ "<percentage>" →
      renderedAlpha env t (some p) a = env.serializeNumber a p none) ∧
    (∀ (env : Env) (t : String) (a : JNum),
      renderedAlpha env t none a = env.numToString a) := by
  refine ⟨fun env p a => rfl, ?_, fun env t a => rfl⟩
  intro env t p a ht
  unfold renderedAlpha
  rw [if_neg ht, if_neg ht]

/-- Witness for C7, at the non-percentage type `"<number>"`. -/
theorem serialize_alpha_unit_rounding_witness :
    renderedAlpha specEnv "<number>" (some 5) ⟨1, 2⟩ = specEnv.serializeNumber ⟨1, 2⟩ 5 none := by
  exact serialize_alpha_unit_rounding.2.1 specEnv "<number>" 5 ⟨1, 2⟩ (by decide)

/-- C8: for a custom-kind format, serialize calls the format's serialize hook
with (working coordinates, alpha, options) when the hook exists, and fails with
the unsupported-operation error — producing no string — when the format has no
serialize hook (a parse-only format). -/
theorem serialize_custom_format (env : Env) (reg : Registry) (c : Color) (opts : Options)
    (fmt : Format) (c1 : Color) (W : List Coord)
    (hfmt : fmt = resolveFormat reg c.space (opts.format.getD "default"))
    (hc1 : c1 = convertIfNeeded env reg c fmt)
    (hW : W = workingCoords env c1 (effectiveGamutFlag opts fmt))
    (hty : fmt.ftype = "custom") :
    (∀ hook, fmt.serialize = some hook →
      serialize env reg c opts = Except.ok (hook W c1.alpha opts)) ∧
    (fmt.serialize = none →
      serialize env reg c opts =
        Except.error (SerializeError.unsupportedOperation (opts.format.getD "default"))) := by
  subst hfmt; subst hc1; subst hW
  constructor
  · intro hook hh
    unfold serialize serializeRender
    rw [if_pos hty, hh]
  · intro hn
    unfold serialize serializeRender
    rw [if_pos hty, hn]

/-- Witness for C8: the hook-carrying custom format serializes via its hook; the
parse-only format yields the unsupported-operation error. -/
theorem serialize_custom_format_witness :
    serialize specEnv regCustom customColor {} = Except.ok "custom:1" ∧
    serialize specEnv regCustom customColor { format := some "parseonly" } =
      Except.error (SerializeError.unsupportedOperation "parseonly") := by
  constructor
  · exact (serialize_custom_format specEnv regCustom customColor {} customHookFormat
      customColor _ rfl rfl rfl rfl).1 _ rfl
  · exact (serialize_custom_format specEnv regCustom customColor { format := some "parseonly" }
      parseOnlyFormat customColor _ rfl rfl rfl rfl).2 rfl

/- ### C10 -/

/-- C10: gamut correction inside serialize affects only the coordinates, never
the alpha: whenever mapping is triggered, the alpha rendered in functional output
or passed to a custom serialize hook is exactly the (possibly space-converted)
color's alpha, even though the coordinates are the gamut-mapped ones (the gamut
mapper `env.toGamut` is arbitrary here, so it may well change its color's alpha —
that changed alpha is never used). -/
theorem serialize_gamut_alpha_untouched (env : Env) (reg : Registry) (c : Color)
    (opts : Options) (fmt : Format) (c1 : Color) (flag : JSBoolish)
    (hfmt : fmt = resolveFormat reg c.space (opts.format.getD "default"))
    (hc1 : c1 = convertIfNeeded env reg c fmt)
    (hflag : flag = effectiveGamutFlag opts fmt)
    (htr : flag.truthy = true) (hout : env.checkInGamut c1 = false) :
    (∀ hook, fmt.ftype = "custom" → fmt.serialize = some hook →
      serialize env reg c opts =
        Except.ok (hook (env.toGamut c1 (specGamutStrategySelector flag)).coords c1.alpha opts)) ∧
    (fmt.ftype ≠ "custom" →
      serialize env reg c opts =
        Except.ok (specFunctionalString (strOrElse fmt.name "color")
          (specPrependId fmt c1
            (fmt.serializeCoords (env.toGamut c1 (specGamutStrategySelector flag)).coords
              (precisionOf opts) opts.coords))
          fmt.commas
          (if shouldSerializeAlpha (alphaIncludeOf opts.alpha) fmt.alpha c1.alpha then
            some (renderedAlpha env (alphaTypeOf opts.alpha) (precisionOf opts) c1.alpha)
          else none))) := by
  subst hfmt; subst hc1; subst hflag
  have hWmap :
      workingCoords env (convertIfNeeded env reg c (resolveFormat reg c.space (opts.format.getD "default")))
        (effectiveGamutFlag opts (resolveFormat reg c.space (opts.format.getD "default"))) =
      (env.toGamut (convertIfNeeded env reg c (resolveFormat reg c.space (opts.format.getD "default")))
        (specGamutStrategySelector
          (effectiveGamutFlag opts (resolveFormat reg c.space (opts.format.getD "default"))))).coords := by
    unfold workingCoords specGamutStrategySelector
    rw [htr, hout]
    simp
  constructor
  · intro hook hty hh
    unfold serialize serializeRender
    rw [if_pos hty, hh, hWmap]
  · intro hty
    unfold serialize
    rw [serializeRender_functional_eq env _ _ _ opts _ hty, hWmap]

/-- Witness for C10: even though `alphaManglingEnv.toGamut` replaces the alpha of
its result by 0, the custom hook is passed the original alpha 1. -/
theorem serialize_gamut_alpha_untouched_witness :
    serialize alphaManglingEnv regCustom customColorOut {} = Except.ok "custom:1" := by
  exact (serialize_gamut_alpha_untouched alphaManglingEnv regCustom customColorOut {}
    customHookFormat customColorOut (effectiveGamutFlag {} customHookFormat)
    rfl rfl rfl rfl (by decide)).1 _ rfl rfl

/- ### C6: bridge lemmas from `JNum` to `ℚ` -/

/-- `JNum.le` agrees with the rational order on well-formed values. -/
theorem JNum.le_eq_true_iff (x y : JNum) (hx : x.wf) (hy : y.wf) :
    x.le y = true ↔ x.val ≤ y.val := by
  unfold JNum.le JNum.val
  rw [decide_eq_true_iff]
  rw [div_le_div_iff₀ (by exact_mod_cast hx) (by exact_mod_cast hy)]
  constructor <;> intro h <;> exact_mod_cast h

/-- `JNum.le` is total. -/
theorem JNum.le_of_le_eq_false (x y : JNum) (h : x.le y = false) : y.le x = true := by
  unfold JNum.le at h ⊢
  rw [decide_eq_true_iff]
  rw [decide_eq_false_iff_not] at h
  push_neg at h
  exact le_of_lt h

/-- Subtraction respects the rational value. -/
theorem JNum.val_sub (x y : JNum) (hx : x.wf) (hy : y.wf) :
    (x.sub y).val = x.val - y.val := by
  have hx' : (x.den : ℚ) ≠ 0 := Nat.cast_ne_zero.mpr hx.ne'
  have hy' : (y.den : ℚ) ≠ 0 := Nat.cast_ne_zero.mpr hy.ne'
  dsimp [JNum.sub, JNum.val]
  field_simp
  try ring

/-- Addition respects the rational value. -/
theorem JNum.val_add (x y : JNum) (hx : x.wf) (hy : y.wf) :
    (x.add y).val = x.val + y.val := by
  have hx' : (x.den : ℚ) ≠ 0 := Nat.cast_ne_zero.mpr hx.ne'
  have hy' : (y.den : ℚ) ≠ 0 := Nat.cast_ne_zero.mpr hy.ne'
  dsimp [JNum.add, JNum.val]
  field_simp
  try ring

/-- Subtraction preserves well-formedness. -/
theorem JNum.wf_sub (x y : JNum) (hx : x.wf) (hy : y.wf) : (x.sub y).wf :=
  Nat.mul_pos hx hy

/-- Addition preserves well-formedness. -/
theorem JNum.wf_add (x y : JNum) (hx : x.wf) (hy : y.wf) : (x.add y).wf :=
  Nat.mul_pos hx hy

/-- `jmin` computes the rational minimum on well-formed values. -/
theorem JNum.val_jmin (x y : JNum) (hx : x.wf) (hy : y.wf) :
    (x.jmin y).val = min x.val y.val := by
  unfold JNum.jmin
  cases h : x.le y
  · rw [if_neg Bool.false_ne_true]
    exact (min_eq_right ((le_eq_true_iff y x hy hx).mp (le_of_le_eq_false x y h))).symm
  · rw [if_pos rfl]
    exact (min_eq_left ((le_eq_true_iff x y hx hy).mp h)).symm

/-- `jmax` computes the rational maximum on well-formed values. -/
theorem JNum.val_jmax (x y : JNum) (hx : x.wf) (hy : y.wf) :
    (x.jmax y).val = max x.val y.val := by
  unfold JNum.jmax
  cases h : x.le y
  · rw [if_neg Bool.false_ne_true]
    exact (max_eq_left ((le_eq_true_iff y x hy hx).mp (le_of_le_eq_false x y h))).symm
  · rw [if_pos rfl]
    exact (max_eq_right ((le_eq_true_iff x y hx hy).mp h)).symm

/-- `jmin` preserves well-formedness. -/
theorem JNum.wf_jmin (x y : JNum) (hx : x.wf) (hy : y.wf) : (x.jmin y).wf := by
  unfold JNum.jmin
  split <;> assumption

/-- `jmax` preserves well-formedness. -/
theorem JNum.wf_jmax (x y : JNum) (hx : x.wf) (hy : y.wf) : (x.jmax y).wf := by
  unfold JNum.jmax
  split <;> assumption

/- ### C6: properties of the clipping mapper -/

/-- A clipped coordinate passes the tolerant range check. -/
theorem clipCoord_inRange (eps : JNum) (c : Coord) (r : JNum × JNum)
    (heps : eps.wf) (hepsv : 0 ≤ eps.val)
    (hc : ∀ q ∈ c, q.wf) (h1 : r.1.wf) (h2 : r.2.wf) (hr : r.1.val ≤ r.2.val) :
    coordInRange eps (clipCoord c r) r = true := by
  cases c with
  | none => rfl
  | some v =>
    have hv : v.wf := hc v rfl
    have hm : (r.2.jmin v).wf := JNum.wf_jmin r.2 v h2 hv
    have hclip : (r.1.jmax (r.2.jmin v)).wf := JNum.wf_jmax r.1 (r.2.jmin v) h1 hm
    have hval : (r.1.jmax (r.2.jmin v)).val = max r.1.val (min r.2.val v.val) := by
      rw [JNum.val_jmax r.1 (r.2.jmin v) h1 hm, JNum.val_jmin r.2 v h2 hv]
    unfold clipCoord coordInRange
    rw [Bool.and_eq_true]
    constructor
    · rw [JNum.le_eq_true_iff (r.1.sub eps) (r.1.jmax (r.2.jmin v)) (JNum.wf_sub r.1 eps h1 heps) hclip,
        JNum.val_sub r.1 eps h1 heps, hval]
      calc r.1.val - eps.val ≤ r.1.val := by linarith
        _ ≤ max r.1.val (min r.2.val v.val) := le_max_left _ _
    · rw [JNum.le_eq_true_iff (r.1.jmax (r.2.jmin v)) (r.2.add eps) hclip (JNum.wf_add r.2 eps h2 heps),
        JNum.val_add r.2 eps h2 heps, hval]
      calc max r.1.val (min r.2.val v.val) ≤ r.2.val := max_le hr (min_le_left _ _)
        _ ≤ r.2.val + eps.val := by linarith

/-- A numeric coordinate that fails the tolerant range check is changed by
clipping. -/
theorem clipCoord_ne (eps : JNum) (v : JNum) (r : JNum × JNum)
    (heps : eps.wf) (hepsv : 0 ≤ eps.val)
    (hv : v.wf) (h1 : r.1.wf) (h2 : r.2.wf) (hr : r.1.val ≤ r.2.val)
    (h : coordInRange eps (some v) r = false) :
    clipCoord (some v) r ≠ some v := by
  have hm : (r.2.jmin v).wf := JNum.wf_jmin r.2 v h2 hv
  have hclip : (r.1.jmax (r.2.jmin v)).wf := JNum.wf_jmax r.1 (r.2.jmin v) h1 hm
  have hval : (r.1.jmax (r.2.jmin v)).val = max r.1.val (min r.2.val v.val) := by
    rw [JNum.val_jmax r.1 (r.2.jmin v) h1 hm, JNum.val_jmin r.2 v h2 hv]
  have hlow : (r.1.sub eps).le v = false ∨ v.le (r.2.add eps) = false := by
    unfold coordInRange at h
    rcases Bool.and_eq_false_iff.mp h with h' | h'
    · exact Or.inl h'
    · exact Or.inr h'
  have hne : (r.1.jmax (r.2.jmin v)).val ≠ v.val := by
    rcases hlow with h' | h'
    · have : ¬ (r.1.sub eps).val ≤ v.val := by
        rw [← JNum.le_eq_true_iff (r.1.sub eps) v (JNum.wf_sub r.1 eps h1 heps) hv]
        simp [h']
      rw [JNum.val_sub r.1 eps h1 heps] at this
      push_neg at this
      have hgt : v.val < max r.1.val (min r.2.val v.val) := by
        calc v.val < r.1.val - eps.val := this
          _ ≤ r.1.val := by linarith
          _ ≤ max r.1.val (min r.2.val v.val) := le_max_left _ _
      rw [hval]
      exact ne_of_gt hgt
    · have : ¬ v.val ≤ (r.2.add eps).val := by
        rw [← JNum.le_eq_true_iff v (r.2.add eps) hv (JNum.wf_add r.2 eps h2 heps)]
        simp [h']
      rw [JNum.val_add r.2 eps h2 heps] at this
      push_neg at this
      have hlt : max r.1.val (min r.2.val v.val) < v.val := by
        have : r.2.val < v.val := by linarith
        calc max r.1.val (min r.2.val v.val) ≤ r.2.val := max_le hr (min_le_left _ _)
          _ < v.val := this
      rw [hval]
      exact ne_of_lt hlt
  intro hEq
  unfold clipCoord at hEq
  have : r.1.jmax (r.2.jmin v) = v := by
    injection hEq
  exact hne (by rw [this])

/-- Clipped coordinates pass the gamut check. -/
theorem clipCoords_inGamut (eps : JNum) (heps : eps.wf) (hepsv : 0 ≤ eps.val) :
    ∀ (cs : List Coord) (rs : List (JNum × JNum)),
      (∀ c ∈ cs, ∀ q ∈ c, q.wf) →
      (∀ r ∈ rs, r.1.wf ∧ r.2.wf ∧ r.1.val ≤ r.2.val) →
      inGamutCoords eps (clipCoords cs rs) rs = true := by
  intro cs
  induction cs with
  | nil =>
    intro rs _ _
    cases rs <;> rfl
  | cons c cs ih =>
    intro rs hcs hrs
    cases rs with
    | nil => rfl
    | cons r rs =>
      have hr := hrs r (List.mem_cons_self r rs)
      unfold clipCoords inGamutCoords
      rw [Bool.and_eq_true]
      exact ⟨clipCoord_inRange eps c r heps hepsv (hcs c (List.mem_cons_self c cs)) hr.1 hr.2.1 hr.2.2,
        ih rs (fun co hco => hcs co (List.mem_cons_of_mem c hco))
          (fun r' hr' => hrs r' (List.mem_cons_of_mem r hr'))⟩

/-- Out-of-gamut coordinates are changed by clipping. -/
theorem clipCoords_ne (eps : JNum) (heps : eps.wf) (hepsv : 0 ≤ eps.val) :
    ∀ (cs : List Coord) (rs : List (JNum × JNum)),
      (∀ c ∈ cs, ∀ q ∈ c, q.wf) →
      (∀ r ∈ rs, r.1.wf ∧ r.2.wf ∧ r.1.val ≤ r.2.val) →
      inGamutCoords eps cs rs = false →
      clipCoords cs rs ≠ cs := by
  intro cs
  induction cs with
  | nil =>
    intro rs _ _ h
    cases rs with
    | nil => exact absurd h (by simp [inGamutCoords])
    | cons r rs => exact absurd h (by simp [inGamutCoords])
  | cons c cs ih =>
    intro rs hcs hrs h
    cases rs with
    | nil => exact absurd h (by simp [inGamutCoords])
    | cons r rs =>
      have hr := hrs r (List.mem_cons_self r rs)
      unfold inGamutCoords at h
      unfold clipCoords
      cases hh : coordInRange eps c r with
      | false =>
        cases c with
        | none => exact absurd hh (by simp [coordInRange])
        | some v =>
          have hne := clipCoord_ne eps v r heps hepsv
            (hcs (some v) (List.mem_cons_self _ cs) v rfl) hr.1 hr.2.1 hr.2.2 hh
          intro hEq
          rw [List.cons.injEq] at hEq
          exact hne hEq.1
      | true =>
        rw [hh, Bool.true_and] at h
        have htail := ih rs (fun co hco => hcs co (List.mem_cons_of_mem c hco))
          (fun r' hr' => hrs r' (List.mem_cons_of_mem r hr')) h
        intro hEq
        rw [List.cons.injEq] at hEq
        exact htail hEq.2

/-- The default tolerance is well-formed. -/
theorem defaultEpsilon_wf : defaultEpsilon.wf := by decide

/-- The default tolerance is nonnegative. -/
theorem defaultEpsilon_val_nonneg : 0 ≤ defaultEpsilon.val := by
  unfold defaultEpsilon JNum.val
  positivity

/-- C6: serializing an out-of-gamut color with `inGamut: true` (under a format
with no target space) uses coordinates that differ from the raw input and that
pass the `inGamut` check afterwards, while serializing with `inGamut: false`
(under a format with no `toGamut` default of its own) renders the raw, possibly
out-of-range, coordinates verbatim with no gamut mapping applied. -/
theorem serialize_gamut_example (reg : Registry) (c : Color) (opts : Options) (fmt : Format)
    (hfmt : fmt = resolveFormat reg c.space (opts.format.getD "default"))
    (hsp : fmt.space = none)
    (hcs : ∀ co ∈ c.coords, ∀ q ∈ co, q.wf)
    (hrs : ∀ r ∈ c.space.ranges, r.1.wf ∧ r.2.wf ∧ r.1.val ≤ r.2.val) :
    (opts.inGamut = JSBoolish.jbool true → checkInGamutSpec c = false →
      serialize specEnv reg c opts =
        serializeRender specEnv c fmt (opts.format.getD "default") opts
          (clipCoords c.coords c.space.ranges) ∧
      clipCoords c.coords c.space.ranges ≠ c.coords ∧
      checkInGamutSpec { c with coords := clipCoords c.coords c.space.ranges } = true) ∧
    (opts.inGamut = JSBoolish.jbool false → fmt.toGamut = JSBoolish.undef →
      serialize specEnv reg c opts =
        serializeRender specEnv c fmt (opts.format.getD "default") opts c.coords) := by
  subst hfmt
  have hconv :
      convertIfNeeded specEnv reg c (resolveFormat reg c.space (opts.format.getD "default")) = c := by
    unfold convertIfNeeded
    rw [hsp]
  constructor
  · intro hin hout
    have hflag :
        effectiveGamutFlag opts (resolveFormat reg c.space (opts.format.getD "default")) =
          JSBoolish.jbool true := by
      unfold effectiveGamutFlag jsOrElse
      rw [hin]
      rfl
    have hW : workingCoords specEnv c (JSBoolish.jbool true) =
        clipCoords c.coords c.space.ranges := by
      unfold workingCoords
      have hch : specEnv.checkInGamut c = false := hout
      rw [hch]
      rfl
    refine ⟨?_, ?_, ?_⟩
    · unfold serialize
      rw [hconv, hflag, hW]
    · exact clipCoords_ne defaultEpsilon defaultEpsilon_wf defaultEpsilon_val_nonneg
        c.coords c.space.ranges hcs hrs hout
    · exact clipCoords_inGamut defaultEpsilon defaultEpsilon_wf defaultEpsilon_val_nonneg
        c.coords c.space.ranges hcs hrs
  · intro hin htg
    have hflag :
        effectiveGamutFlag opts (resolveFormat reg c.space (opts.format.getD "default")) =
          JSBoolish.undef := by
      unfold effectiveGamutFlag jsOrElse
      rw [hin, htg]
      rfl
    unfold serialize
    rw [hconv, hflag]
    rfl

/-- The fixture ranges are well-formed. -/
theorem srgbRanges_wf : ∀ r ∈ srgbSpace.ranges, r.1.wf ∧ r.2.wf ∧ r.1.val ≤ r.2.val := by
  intro r hr
  simp [srgbSpace, srgbRanges] at hr
  subst hr
  refine ⟨by decide, by decide, ?_⟩
  unfold JNum.val
  norm_num

/-- The fixture coordinates are well-formed. -/
theorem redOut_coords_wf : ∀ co ∈ redOut.coords, ∀ q ∈ co, q.wf := by
  intro co hco q hq
  rw [Option.mem_def] at hq
  subst hq
  have hco' : some q ∈ [some (⟨3, 2⟩ : JNum), some ⟨0, 1⟩, some ⟨0, 1⟩] := hco
  simp only [List.mem_cons, List.not_mem_nil, or_false] at hco'
  rcases hco' with h | h | h <;> (injection h with h) <;> subst h <;> decide

/-- Witness for C6, at `redOut`: `inGamut: true` clips (the clipped coordinates
differ from the input and pass the check); `inGamut: false` keeps them verbatim. -/
theorem serialize_gamut_example_witness :
    (serialize specEnv reg1 redOut { inGamut := JSBoolish.jbool true } =
        serializeRender specEnv redOut colorFnFormat "default"
          { inGamut := JSBoolish.jbool true } (clipCoords redOut.coords redOut.space.ranges) ∧
      clipCoords redOut.coords redOut.space.ranges ≠ redOut.coords ∧
      checkInGamutSpec { redOut with coords := clipCoords redOut.coords redOut.space.ranges } = true) ∧
    serialize specEnv reg1 redOut { inGamut := JSBoolish.jbool false } =
      serializeRender specEnv redOut colorFnFormat "default"
        { inGamut := JSBoolish.jbool false } redOut.coords := by
  constructor
  · exact (serialize_gamut_example reg1 redOut { inGamut := JSBoolish.jbool true } colorFnFormat
      rfl rfl redOut_coords_wf srgbRanges_wf).1 rfl (by decide)
  · exact (serialize_gamut_example reg1 redOut { inGamut := JSBoolish.jbool false } colorFnFormat
      rfl rfl redOut_coords_wf srgbRanges_wf).2 rfl rfl

/-- Extension is reflexive. -/
theorem storeExt_refl (st : Store) : StoreExt st st := ⟨[], by simp⟩

/-- Allocation only extends the store. -/
theorem storeExt_alloc (st : Store) (v : List Coord) : StoreExt st (alloc st v).2 := ⟨[v], rfl⟩

/-- Extension is transitive. -/
theorem storeExt_trans {s1 s2 s3 : Store} (h1 : StoreExt s1 s2) (h2 : StoreExt s2 s3) :
    StoreExt s1 s3 := by
  obtain ⟨e1, rfl⟩ := h1
  obtain ⟨e2, rfl⟩ := h2
  exact ⟨e1 ++ e2, List.append_assoc _ _ _⟩

/-- Cloning only extends the store. -/
theorem storeExt_cloneStore (st : Store) (c : ColorRef) : StoreExt st (cloneStore st c).2 :=
  storeExt_alloc _ _

/-- Gamut mapping only extends the store. -/
theorem storeExt_toGamutStore (env : Env) (st : Store) (c : ColorRef) (strategy : Option JSBoolish) :
    StoreExt st (toGamutStore env st c strategy).2 :=
  storeExt_alloc _ _

/-- Conversion only extends the store. -/
theorem storeExt_toFnStore (env : Env) (reg : Registry) (st : Store) (c : ColorRef) (sid : String) :
    StoreExt st (toFnStore env reg st c sid).2 := by
  unfold toFnStore
  split
  · exact storeExt_refl st
  · split
    · exact storeExt_alloc _ _
    · exact storeExt_refl st

/-- The conversion step only extends the store. -/
theorem storeExt_convertIfNeededStore (env : Env) (reg : Registry) (st : Store) (c : ColorRef)
    (fmt : Format) : StoreExt st (convertIfNeededStore env reg st c fmt).2 := by
  unfold convertIfNeededStore
  split
  · split
    · exact storeExt_toFnStore env reg st c _
    · exact storeExt_refl st
  · exact storeExt_refl st

/-- serialize only ever allocates: the final store extends the initial one. -/
theorem storeExt_serializeStore (env : Env) (reg : Registry) (st : Store) (c : ColorRef)
    (opts : Options) : StoreExt st (serializeStore env reg st c opts).2 := by
  unfold serializeStore
  dsimp only
  split
  · exact storeExt_trans (storeExt_convertIfNeededStore env reg st c _)
      (storeExt_trans (storeExt_alloc _ _)
        (storeExt_trans (storeExt_cloneStore _ _) (storeExt_toGamutStore _ _ _ _)))
  · exact storeExt_trans (storeExt_convertIfNeededStore env reg st c _) (storeExt_alloc _ _)

/-- C9: serialize treats its input Color Value as read-only: every coordinate
array that existed before the call — in particular the input color's own — is
unchanged in the store after serialize returns (or fails): the working
coordinates are a copy made before any manipulation, and gamut mapping operates
on a clone, so the algorithm only ever allocates fresh arrays (the space and
alpha fields are immutable values of the model). -/
theorem serializeStore_readonly (env : Env) (reg : Registry) (st : Store) (c : ColorRef)
    (opts : Options) (i : Nat) (hi : i < st.length) :
    (serializeStore env reg st c opts).2[i]? = st[i]? := by
  obtain ⟨ext, hext⟩ := storeExt_serializeStore env reg st c opts
  rw [hext]
  exact List.getElem?_append_left hi

/-- Witness for C9: serializing the out-of-gamut `refColor0` (so the gamut-map
branch actually runs) leaves its coordinate array unchanged in the store. -/
theorem serializeStore_readonly_witness :
    (serializeStore specEnv reg1 store0 refColor0 {}).2[0]? = store0[0]? := by
  exact serializeStore_readonly specEnv reg1 store0 refColor0 {} 0 (by decide)

end ColorJs

